import Mathlib

/-!
Shallow embedding of the Oldland CPU instruction-set simulator
(`sim/main.c`) and of the debugger wire protocol (`debugger/protocol.h`),
with theorems checking the design document's claims against it.

Machine integers are modelled as `Nat` with explicit reduction `% 2^32`
where the C code's `uint32_t` arithmetic wraps.  Fallible operations
(`die`, failed asserts) are modelled with `Option`.  The Lua test-oracle
hooks (`data_write_hook`, `validate_result`) are modelled by a boolean
"registered" flag plus an explicit event trace.
-/

/-- `SIM_SUCCESS` sentinel word (enum `sim_status`). -/
def SIM_SUCCESS : Nat := 0xffffffff

/-- `SIM_FAIL` sentinel word (enum `sim_status`). -/
def SIM_FAIL : Nat := 0xfffffffe

/-- `SIM_CONTINUE` (enum `sim_status`). -/
def SIM_CONTINUE : Nat := 0x00000000

/-- The register / flag part of `struct cpu`.  `regs` maps indices 0..7
(R0..R5, FP, SP) to 32-bit values; `z` and `c` are the one-bit flags. -/
structure Cpu where
  pc : Nat
  next_pc : Nat
  regs : Nat → Nat
  z : Bool
  c : Bool

/-- `instr_class`: bits[31:30]. -/
def instr_class (instr : Nat) : Nat := (instr >>> 30) &&& 0x3

/-- `arith_opc`: bits[29:26]. -/
def arith_opc (instr : Nat) : Nat := (instr >>> 26) &&& 0xf

/-- `branch_opc`: bits[29:26]. -/
def branch_opc (instr : Nat) : Nat := (instr >>> 26) &&& 0xf

/-- `ls_opc`: bits[29:26]. -/
def ls_opc (instr : Nat) : Nat := (instr >>> 26) &&& 0xf

/-- `instr_rd`: bits[8:6]. -/
def instr_rd (instr : Nat) : Nat := (instr >>> 6) &&& 0x7

/-- `instr_ra`: bits[5:3]. -/
def instr_ra (instr : Nat) : Nat := (instr >>> 3) &&& 0x7

/-- `instr_rb`: bits[2:0]. -/
def instr_rb (instr : Nat) : Nat := instr &&& 0x7

/-- `instr_imm16`: bits[25:10]. -/
def instr_imm16 (instr : Nat) : Nat := (instr >>> 10) &&& 0xffff

/-- `instr_imm24`: bits[23:0]. -/
def instr_imm24 (instr : Nat) : Nat := instr &&& 0xffffff

/-- `cpu_wr_reg`: write a register.  The `% 2^32` reflects the
`uint32_t v` parameter of the C function. -/
def cpu_wr_reg (s : Cpu) (r v : Nat) : Cpu :=
  { s with regs := fun i => if i = r then v % 2^32 else s.regs i }

/-- `cpu_set_next_pc`: write the shadow next-PC (`uint32_t v`). -/
def cpu_set_next_pc (s : Cpu) (v : Nat) : Cpu :=
  { s with next_pc := v % 2^32 }

/-- `emul_arithmetic` (sim/main.c).  Each case mirrors one arm of the C
switch; `none` is the `die("invalid arithmetic opcode ...")` default arm.
Subtraction is `uint32_t` wraparound; BIC's `~(1 << op2)` is the 32-bit
complement of the single bit (`% 2^32` keeps the mask in 32 bits).
After the switch, the C code recomputes `c->z = !c->regs[rd]` for every
opcode except `ARITH_MOVHI`. -/
def emul_arithmetic (s : Cpu) (instr : Nat) : Option Cpu :=
  let ra := instr_ra instr
  let rb := instr_rb instr
  let rd := instr_rd instr
  let imm16 := instr_imm16 instr
  let op2 := if instr.testBit 9 then s.regs rb else imm16
  let res : Option Cpu :=
    match arith_opc instr with
    | 0x0 => some (cpu_wr_reg s rd (s.regs ra + op2))
    | 0x2 => some (cpu_wr_reg s rd (s.regs ra + (2^32 - op2 % 2^32)))
    | 0x4 => some (cpu_wr_reg s rd (s.regs ra <<< op2))
    | 0x5 => some (cpu_wr_reg s rd (s.regs ra >>> op2))
    | 0x6 => some (cpu_wr_reg s rd (s.regs ra &&& op2))
    | 0x7 => some (cpu_wr_reg s rd (s.regs ra ^^^ op2))
    | 0x8 => some (cpu_wr_reg s rd (s.regs ra &&& ((2^32 - 1) ^^^ (1 <<< op2) % 2^32)))
    | 0x9 => some (cpu_wr_reg s rd (s.regs ra ||| op2))
    | 0xa => some (cpu_wr_reg s rd (op2 <<< 16))
    | _ => none
  res.map fun s1 =>
    if arith_opc instr != 0xa then { s1 with z := s1.regs rd == 0 } else s1

/-- Helper bound: a 4-bit opcode field is below 16. -/
theorem opc_lt_sixteen (x : Nat) : x &&& 0xf < 16 :=
  Nat.lt_succ_of_le (Nat.and_le_right)

/-- Helper bound: `instr_imm16` is below `2^16`. -/
theorem imm16_lt (instr : Nat) : instr_imm16 instr < 2^16 :=
  Nat.lt_succ_of_le (Nat.and_le_right)

/-- Helper bound: `instr_imm24` is below `2^24`. -/
theorem imm24_lt (instr : Nat) : instr_imm24 instr < 2^24 :=
  Nat.lt_succ_of_le (Nat.and_le_right)

/-- Sign extension of a 16-bit field to a signed value, the translation of
the C idiom `imm16 <<= 16; imm16 >>= 16` on an `int32_t` that holds a
value below `2^16`. -/
def sext16 (imm : Nat) : Int :=
  if imm % 2^16 < 2^15 then (imm % 2^16 : Int) else (imm % 2^16 : Int) - 2^16

/-- Sign extension of a 24-bit field to a signed value, the translation of
the C idiom `imm24 <<= 8; imm24 >>= 8` on an `int32_t` that holds a value
below `2^24`. -/
def sext24 (imm : Nat) : Int :=
  if imm % 2^24 < 2^23 then (imm % 2^24 : Int) else (imm % 2^24 : Int) - 2^24

/-- `emul_branch` (sim/main.c).  `none` is the
`die("invalid branch opcode ...")` default arm.  NOTE: the C code computes
`target = (instr & (1 << 25)) ? rb : c->pc + (imm24 << 2)` where `rb` is
the register *index* returned by `instr_rb`, so the register-indirect
target is the index itself — translated faithfully. -/
def emul_branch (s : Cpu) (instr : Nat) : Option Cpu :=
  let rb := instr_rb instr
  let imm24 : Int := sext24 (instr_imm24 instr)
  let target : Nat :=
    if instr.testBit 25 then rb
    else (((s.pc : Int) + imm24 * 4) % (2:Int)^32).toNat
  match branch_opc instr with
  | 0x4 => some (cpu_set_next_pc s target)
  | 0x6 => if s.z then some (cpu_set_next_pc s target) else some s
  | _ => none

/-- The address space: a byte-addressed partial store; `none` means the
byte is not covered by any region. -/
def Mem : Type := Nat → Option Nat

/-- Point update of the address space. -/
def memUpdate (m : Mem) (a b : Nat) : Mem :=
  fun x => if x = a then some b else m x

/-- Read `n` consecutive mapped bytes, little-endian. -/
def readBytes (m : Mem) (addr : Nat) : Nat → Option Nat
  | 0 => some 0
  | n + 1 =>
    match m addr, readBytes m (addr + 1) n with
    | some b, some rest => some (b % 256 + 256 * rest)
    | _, _ => none

/-- Write `n` consecutive bytes of `v`, little-endian; fails if any of
them is unmapped. -/
def writeBytes (m : Mem) (addr v : Nat) : Nat → Option Mem
  | 0 => some m
  | n + 1 =>
    match m addr with
    | some _ => writeBytes (memUpdate m addr (v % 256)) (addr + 1) (v / 256) n
    | none => none

/-- Modelled from the spec: `mem_map_read` is declared in `io.h` but its
body is not in the sources given; the spec's Address Space `read` takes a
width in {8,16,32}, fails on an unmapped or unaligned access, and
otherwise yields the stored bytes. -/
def mem_map_read (m : Mem) (addr nrBits : Nat) : Option Nat :=
  if (nrBits == 8 || nrBits == 16 || nrBits == 32) && addr % (nrBits / 8) == 0 then
    readBytes m addr (nrBits / 8)
  else none

/-- Modelled from the spec: `mem_map_write` is declared in `io.h` but its
body is not in the sources given; the spec's Address Space `write` has the
same failure modes as `read` and commits the value's bytes. -/
def mem_map_write (m : Mem) (addr nrBits v : Nat) : Option Mem :=
  if (nrBits == 8 || nrBits == 16 || nrBits == 32) && addr % (nrBits / 8) == 0 then
    writeBytes m addr v (nrBits / 8)
  else none

/-- One invocation of the Lua `data_write_hook` store observer, with the
arguments the C code pushes: `(addr, nr_bits, val)`. -/
structure Event where
  addr : Nat
  nr_bits : Nat
  value : Nat
deriving DecidableEq

/-- `cpu_mem_map_write` (sim/main.c): if the `data_write_hook` global is
registered (`hook = true`) it is called with `(addr, nrBits, v)`, and then
— in either case — the write is handed to `mem_map_write`. -/
def cpu_mem_map_write (hook : Bool) (m : Mem) (addr nrBits v : Nat) :
    List Event × Option Mem :=
  ((if hook then [⟨addr, nrBits, v⟩] else []), mem_map_write m addr nrBits v)

/-- The effective-address computation at the top of `emul_ldr_str`:
PC-relative (bit 9 set) sign-extends the 16-bit immediate, the base+offset
form adds the raw immediate to register operand A. -/
def lsAddr (s : Cpu) (instr : Nat) : Nat :=
  if instr.testBit 9 then
    (((s.pc : Int) + sext16 (instr_imm16 instr)) % (2:Int)^32).toNat
  else (s.regs (instr_ra instr) + instr_imm16 instr) % 2^32

/-- `emul_ldr_str` (sim/main.c).  Only the 8-bit forms are implemented;
every other opcode, and any failing memory access, is a `die` (`none`).
The returned list records the store-observer invocations. -/
def emul_ldr_str (hook : Bool) (s : Cpu) (m : Mem) (instr : Nat) :
    List Event × Option (Cpu × Mem) :=
  let addr := lsAddr s instr
  match ls_opc instr with
  | 0x2 =>
    match mem_map_read m addr 8 with
    | some v => ([], some (cpu_wr_reg s (instr_rd instr) (v &&& 0xff), m))
    | none => ([], none)
  | 0x6 =>
    let v := s.regs (instr_rb instr) &&& 0xff
    match cpu_mem_map_write hook m addr 8 v with
    | (evs, some m2) => (evs, some (s, m2))
    | (evs, none) => (evs, none)
  | _ => ([], none)

/-- `emul_insn` (sim/main.c): dispatch on the instruction class;
class 3 is the `die("invalid instruction class ...")` arm. -/
def emul_insn (hook : Bool) (s : Cpu) (m : Mem) (instr : Nat) :
    List Event × Option (Cpu × Mem) :=
  match instr_class instr with
  | 0 => ([], (emul_arithmetic s instr).map fun s1 => (s1, m))
  | 1 => ([], (emul_branch s instr).map fun s1 => (s1, m))
  | 2 => emul_ldr_str hook s m instr
  | _ => ([], none)

/-- The four ways one call of `cpu_cycle` can end: the two sentinel
returns, `SIM_CONTINUE`, or an aborted process (`die` / failed assert). -/
inductive SimStatus where
  | success
  | fail
  | cont
  | died
deriving DecidableEq

/-- Result of one `cpu_cycle`: its status, the CPU state and address
space afterwards (for `died`, at the point of the abort), and the store
observer invocations made during it. -/
structure CycleOut where
  status : SimStatus
  cpu : Cpu
  mem : Mem
  events : List Event

/-- `cpu_cycle` (sim/main.c): set `next_pc = pc + 4`, fetch at `pc`
(a failed fetch trips `assert(!err)`), return a sentinel word directly,
otherwise execute the instruction and latch `pc := next_pc`. -/
def cpu_cycle (hook : Bool) (s : Cpu) (m : Mem) : CycleOut :=
  let s1 : Cpu := { s with next_pc := (s.pc + 4) % 2^32 }
  match mem_map_read m s1.pc 32 with
  | none => ⟨.died, s1, m, []⟩
  | some instr =>
    if instr = SIM_SUCCESS then ⟨.success, s1, m, []⟩
    else if instr = SIM_FAIL then ⟨.fail, s1, m, []⟩
    else
      match emul_insn hook s1 m instr with
      | (evs, none) => ⟨.died, s1, m, evs⟩
      | (evs, some (s2, m2)) => ⟨.cont, { s2 with pc := s2.next_pc }, m2, evs⟩

/-- How the driver loop of `main` can end (fuel exhaustion is `none`). -/
inductive RunOutcome where
  | success
  | fail
  | died
deriving DecidableEq

/-- The `do { err = cpu_cycle(c); } while (err == 0);` loop of `main`,
with fuel; yields the outcome and the accumulated observer events. -/
def runLoop (hook : Bool) : Nat → Cpu → Mem → Option (RunOutcome × List Event)
  | 0, _, _ => none
  | fuel + 1, s, m =>
    let o := cpu_cycle hook s m
    match o.status with
    | .success => some (.success, o.events)
    | .fail => some (.fail, o.events)
    | .died => some (.died, o.events)
    | .cont => (runLoop hook fuel o.cpu o.mem).map fun r => (r.1, o.events ++ r.2)

/-- The tail of `main` (sim/main.c): run the loop, then call
`validate_result` — which invokes the Lua `validate_result` global when it
is registered (`vr = true`) — only when the loop ended with `SIM_SUCCESS`.
The second component counts the success-callback invocations. -/
def sim_main (hook vr : Bool) (fuel : Nat) (s : Cpu) (m : Mem) :
    Option (RunOutcome × Nat) :=
  (runLoop hook fuel s m).map fun r =>
    (r.1, if r.1 = RunOutcome.success then (if vr then 1 else 0) else 0)

/-!  The debugger wire protocol, `debugger/protocol.h`.  C `enum`
constants are `int`-valued, so they are embedded as `Int`. -/

/-- `CMD_STOP` (enum `dbg_cmd`). -/
def CMD_STOP : Int := 0

/-- `CMD_RUN`. -/
def CMD_RUN : Int := 1

/-- `CMD_STEP`. -/
def CMD_STEP : Int := 2

/-- `CMD_READ_REG`. -/
def CMD_READ_REG : Int := 3

/-- `CMD_WRITE_REG`. -/
def CMD_WRITE_REG : Int := 4

/-- `CMD_RMEM32`. -/
def CMD_RMEM32 : Int := 5

/-- `CMD_RMEM16`. -/
def CMD_RMEM16 : Int := 6

/-- `CMD_RMEM8`. -/
def CMD_RMEM8 : Int := 7

/-- `CMD_WMEM32`. -/
def CMD_WMEM32 : Int := 8

/-- `CMD_WMEM16`. -/
def CMD_WMEM16 : Int := 9

/-- `CMD_WMEM8`. -/
def CMD_WMEM8 : Int := 10

/-- `CMD_RESET`. -/
def CMD_RESET : Int := 11

/-- `CMD_CACHE_SYNC`. -/
def CMD_CACHE_SYNC : Int := 12

/-- `CMD_CPUID`. -/
def CMD_CPUID : Int := 13

/-- `CMD_GET_EXEC_STATUS`. -/
def CMD_GET_EXEC_STATUS : Int := 14

/-- `CMD_START_TRACE = -2` (simulator-only extension). -/
def CMD_START_TRACE : Int := -2

/-- `CMD_SIM_TERM = -1` (simulator-only extension). -/
def CMD_SIM_TERM : Int := -1

/-- `EXEC_STATUS_RUNNING = (1 << 0)` (enum `exec_status`). -/
def EXEC_STATUS_RUNNING : Nat := 1 <<< 0

/-- `EXEC_STATUS_STOPPED_ON_BKPT = (1 << 1)` (enum `exec_status`). -/
def EXEC_STATUS_STOPPED_ON_BKPT : Nat := 1 <<< 1

/-- The fifteen core command codes in declaration order. -/
def coreCmdCodes : List Int :=
  [CMD_STOP, CMD_RUN, CMD_STEP, CMD_READ_REG, CMD_WRITE_REG,
   CMD_RMEM32, CMD_RMEM16, CMD_RMEM8, CMD_WMEM32, CMD_WMEM16, CMD_WMEM8,
   CMD_RESET, CMD_CACHE_SYNC, CMD_CPUID, CMD_GET_EXEC_STATUS]

/-!  Concrete states and memories used by the witness theorems. -/

/-- The all-zero CPU state (what `calloc` gives `new_cpu`). -/
def cpu0 : Cpu := ⟨0, 0, fun _ => 0, false, false⟩

/-- A state with `pc = 0x100` and `R3 = 0x1234`. -/
def cpuR3 : Cpu :=
  { cpu0 with pc := 0x100, regs := fun r => if r = 3 then 0x1234 else 0 }

/-- A state with `pc = 0x100`. -/
def cpuPC : Cpu := { cpu0 with pc := 0x100 }

/-- A memory whose first word is the `SIM_SUCCESS` sentinel. -/
def memS : Mem := fun a => if a < 4 then some 0xff else none

/-- A memory with sixteen mapped zero bytes. -/
def memB : Mem := fun a => if a < 16 then some 0 else none

/-- A fully unmapped memory. -/
def memNone : Mem := fun _ => none

/-- C9: the execution-status bitmask has RUNNING on bit 0 and
STOPPED_ON_BREAKPOINT on bit 1; the fifteen core command codes are
distinct and strictly increasing in the listed order, and the two
simulator-only extensions are distinct from all of them and from each
other. -/
theorem debug_protocol_constants :
    EXEC_STATUS_RUNNING = 2^0 ∧ EXEC_STATUS_STOPPED_ON_BKPT = 2^1 ∧
    List.Chain' (fun a b => a < b) coreCmdCodes ∧
    coreCmdCodes.Nodup ∧
    CMD_START_TRACE ∉ coreCmdCodes ∧ CMD_SIM_TERM ∉ coreCmdCodes ∧
    CMD_START_TRACE ≠ CMD_SIM_TERM := by
  refine ⟨rfl, rfl, ?_, ?_, ?_, ?_, ?_⟩ <;>
    simp [coreCmdCodes, CMD_STOP, CMD_RUN, CMD_STEP, CMD_READ_REG,
      CMD_WRITE_REG, CMD_RMEM32, CMD_RMEM16, CMD_RMEM8, CMD_WMEM32,
      CMD_WMEM16, CMD_WMEM8, CMD_RESET, CMD_CACHE_SYNC, CMD_CPUID,
      CMD_GET_EXEC_STATUS, CMD_START_TRACE, CMD_SIM_TERM]

/-- C1 (code bug): at the concrete state with `R3 = 0x1234`, the
register-indirect unconditional branch `0x52000003` (class 1, opcode B,
bit 25 set, rb = 3) sets `next_pc` to the register *index* 3, not to the
register's value 0x1234 as the design requires. -/
theorem branch_register_indirect_uses_index :
    (emul_branch cpuR3 0x52000003).map Cpu.next_pc = some 3 ∧
    cpuR3.regs 3 = 0x1234 ∧ (3 : Nat) ≠ 0x1234 :=
  ⟨rfl, rfl, by decide⟩

/-- C2 (counterexample): the opcode `ARITH_ADDC = 0x1` is listed by the
claim as executing, but `emul_arithmetic` has no case for it: instruction
`0x04000000` (class 0, opcode 0x1) takes the fatal decode-error path. -/
theorem addc_is_fatal_decode_error :
    emul_arithmetic cpu0 0x04000000 = none ∧ arith_opc 0x04000000 = 0x1 :=
  ⟨rfl, by decide⟩

/-- C2 (amended): an arithmetic-class instruction executes (rather than
taking the fatal decode-error path) exactly when its opcode is one of
ADD, SUB, LSL, LSR, AND, XOR, BIC, OR, MOVHI — ADDC, SUBC and every value
above 0xa are fatal decode errors — and every executing instruction's
only register change is a 32-bit result written to the destination
register. -/
theorem arith_opcode_coverage (s : Cpu) (instr : Nat) :
    ((emul_arithmetic s instr).isSome = true ↔
      (arith_opc instr = 0x0 ∨ arith_opc instr = 0x2 ∨ arith_opc instr = 0x4 ∨
       arith_opc instr = 0x5 ∨ arith_opc instr = 0x6 ∨ arith_opc instr = 0x7 ∨
       arith_opc instr = 0x8 ∨ arith_opc instr = 0x9 ∨ arith_opc instr = 0xa)) ∧
    (∀ s', emul_arithmetic s instr = some s' →
      ∃ v, s'.regs =
        fun r => if r = instr_rd instr then v % 2^32 else s.regs r) := by
  have hlt : arith_opc instr < 16 := opc_lt_sixteen _
  set k := arith_opc instr with hk
  constructor
  · interval_cases k <;> simp [emul_arithmetic, ← hk]
  · intro s' h
    interval_cases k <;>
      simp only [emul_arithmetic, ← hk] at h <;>
      simp at h <;>
      (try subst h) <;>
      exact ⟨_, rfl⟩

/-- C4: for every arithmetic-class instruction that executes, every
opcode except MOVHI leaves the Z flag equal to (destination register
value == 0), and MOVHI leaves both Z and C at their previous values. -/
theorem arith_flag_law (s : Cpu) (instr : Nat) (s' : Cpu)
    (h : emul_arithmetic s instr = some s') :
    (arith_opc instr ≠ 0xa →
      (s'.z = true ↔ s'.regs (instr_rd instr) = 0)) ∧
    (arith_opc instr = 0xa → s'.z = s.z ∧ s'.c = s.c) := by
  have hlt : arith_opc instr < 16 := opc_lt_sixteen _
  set k := arith_opc instr with hk
  interval_cases k <;>
    simp only [emul_arithmetic, ← hk] at h ⊢ <;>
    simp at h <;>
    (try subst h) <;>
    simp [cpu_wr_reg]

/-- Expected outcome of running `ADD R1 := R0 + 5` from the zero state. -/
def cpuAfterAdd : Cpu :=
  { cpu0 with regs := fun r => if r = 1 then 5 else 0, z := false }

/-- Witness for `arith_opcode_coverage`: the executing `ADD` instruction
`0x1440` writes its result to destination register R1 and nothing else. -/
theorem arith_opcode_coverage_witness :
    ∃ v, cpuAfterAdd.regs =
      fun r => if r = instr_rd 0x1440 then v % 2^32 else cpu0.regs r :=
  (arith_opcode_coverage cpu0 0x1440).2 cpuAfterAdd rfl

/-- Witness for `arith_flag_law`: the concrete instruction `0x1440`
(class 0, opcode ADD, rd = R1, ra = R0, immediate 5) run from the zero
state leaves Z = (R1 == 0) = false. -/
theorem arith_flag_law_witness :
    emul_arithmetic cpu0 0x1440 = some cpuAfterAdd ∧
    (cpuAfterAdd.z = true ↔ cpuAfterAdd.regs (instr_rd 0x1440) = 0) :=
  ⟨rfl, (arith_flag_law cpu0 0x1440 cpuAfterAdd rfl).1 (by decide)⟩

/-- C3: when the word fetched at PC is one of the two sentinels,
`cpu_cycle` returns the corresponding terminal status; PC, every
register, both flags and the whole address space are unchanged; no store
observer fires; and the driver loop halts at once with the corresponding
outcome. -/
theorem sentinel_terminates (hook : Bool) (s : Cpu) (m : Mem) (fuel w : Nat)
    (hr : mem_map_read m s.pc 32 = some w)
    (hw : w = SIM_SUCCESS ∨ w = SIM_FAIL) :
    (cpu_cycle hook s m).status
      = (if w = SIM_SUCCESS then SimStatus.success else SimStatus.fail) ∧
    (cpu_cycle hook s m).cpu.pc = s.pc ∧
    (∀ r, (cpu_cycle hook s m).cpu.regs r = s.regs r) ∧
    (cpu_cycle hook s m).cpu.z = s.z ∧
    (cpu_cycle hook s m).cpu.c = s.c ∧
    (cpu_cycle hook s m).mem = m ∧
    (cpu_cycle hook s m).events = [] ∧
    runLoop hook (fuel + 1) s m
      = some ((if w = SIM_SUCCESS then RunOutcome.success else RunOutcome.fail),
              []) := by
  have hcyc : cpu_cycle hook s m =
      ⟨if w = SIM_SUCCESS then SimStatus.success else SimStatus.fail,
       { s with next_pc := (s.pc + 4) % 2^32 }, m, []⟩ := by
    rcases hw with hw | hw <;> subst hw <;>
      simp [cpu_cycle, hr, SIM_SUCCESS, SIM_FAIL]
  have hloop : runLoop hook (fuel + 1) s m
      = some ((if w = SIM_SUCCESS then RunOutcome.success
               else RunOutcome.fail), []) := by
    rcases hw with hw | hw <;> subst hw <;>
      simp [runLoop, hcyc, SIM_SUCCESS, SIM_FAIL]
  exact ⟨by rw [hcyc], by rw [hcyc], fun r => by rw [hcyc], by rw [hcyc],
    by rw [hcyc], by rw [hcyc], by rw [hcyc], hloop⟩

/-- Witness for `sentinel_terminates`: a memory whose word at address 0
is `0xffffffff` makes the zero-state cycle succeed and the loop halt with
the success outcome. -/
theorem sentinel_terminates_witness :
    (cpu_cycle true cpu0 memS).status = SimStatus.success ∧
    runLoop true 1 cpu0 memS = some (RunOutcome.success, []) := by
  have h := sentinel_terminates true cpu0 memS 0 0xffffffff (by decide)
    (Or.inl rfl)
  exact ⟨h.1, h.2.2.2.2.2.2.2⟩

/-- The spec's effective-address law for loads and stores, stated
independently in plain `Nat` arithmetic: PC plus the sign-extended 16-bit
immediate for the PC-relative mode, the value of register operand A plus
the zero-extended immediate otherwise (both reduced to 32 bits). -/
def ls_effective_addr_spec (pcRel : Bool) (pc regA imm : Nat) : Nat :=
  if pcRel then
    (pc + (if imm < 2^15 then imm else 2^32 - (2^16 - imm))) % 2^32
  else (regA + imm) % 2^32

/-- C5: the address computed by `emul_ldr_str` equals the spec's law —
sign extension exactly when bit 9 selects PC-relative addressing, zero
extension for the base+offset form. -/
theorem lsaddr_matches_spec (s : Cpu) (instr : Nat) :
    lsAddr s instr =
      ls_effective_addr_spec (instr.testBit 9) s.pc
        (s.regs (instr_ra instr)) (instr_imm16 instr) := by
  have himm : instr_imm16 instr < 2^16 := imm16_lt instr
  unfold lsAddr ls_effective_addr_spec sext16
  cases hb : instr.testBit 9
  · simp [hb]
  · simp only [hb, if_true, Nat.mod_eq_of_lt himm]
    rcases Nat.lt_or_ge (instr_imm16 instr) (2^15) with hlt | hge
    · simp only [if_pos hlt]
      omega
    · simp only [if_neg (by omega : ¬ instr_imm16 instr < 2^15)]
      omega

/-- Sanity instance of the address law: with `pc = 0x100`, a PC-relative
access with immediate `0xffff` (sign-extended to -1) resolves to 0xff. -/
theorem lsaddr_sign_extension_instance : lsAddr cpuPC 0x3fffe00 = 0xff := by
  decide

/-- C6: an unconditional PC-relative branch (opcode B, bit 25 clear)
always sets Next-PC to PC plus the sign-extended 24-bit immediate shifted
left by two (reduced to 32 bits); in particular an immediate field of
0xFFFFFF yields Next-PC = PC - 4. -/
theorem branch_pc_relative_target (s : Cpu) (instr : Nat)
    (hop : branch_opc instr = 0x4) (hmode : instr.testBit 25 = false)
    (hpc : s.pc < 2^32) :
    (emul_branch s instr).map Cpu.next_pc =
      some ((s.pc + 4 * instr_imm24 instr +
        (if instr_imm24 instr < 2^23 then 0 else 2^32 - 2^26)) % 2^32) ∧
    (instr_imm24 instr = 0xffffff → 4 ≤ s.pc →
      (emul_branch s instr).map Cpu.next_pc = some (s.pc - 4)) := by
  have himm : instr_imm24 instr < 2^24 := imm24_lt instr
  have hmain : (emul_branch s instr).map Cpu.next_pc =
      some ((s.pc + 4 * instr_imm24 instr +
        (if instr_imm24 instr < 2^23 then 0 else 2^32 - 2^26)) % 2^32) := by
    unfold emul_branch sext24
    simp only [hop, hmode, Bool.false_eq_true, if_false,
      Nat.mod_eq_of_lt himm]
    simp only [cpu_set_next_pc, Option.map_some', Option.some.injEq]
    rcases Nat.lt_or_ge (instr_imm24 instr) (2^23) with hlt | hge
    · simp only [if_pos hlt]
      omega
    · simp only [if_neg (by omega : ¬ instr_imm24 instr < 2^23)]
      omega
  refine ⟨hmain, fun hf hge => ?_⟩
  rw [hmain, hf]
  norm_num
  omega

/-- Witness for `branch_pc_relative_target`: from `pc = 0x100`, the
branch `0x50ffffff` (opcode B, PC-relative, immediate 0xFFFFFF) sets
Next-PC to 0xfc = 0x100 - 4. -/
theorem branch_pc_relative_target_witness :
    (emul_branch cpuPC 0x50ffffff).map Cpu.next_pc = some 0xfc := by
  have h := branch_pc_relative_target cpuPC 0x50ffffff (by decide) (by decide)
    (by decide)
  exact h.2 (by decide) (by decide)

/-- C7 (counterexample): with the store observer registered and a fully
unmapped memory, the 8-bit store `0x98000000` invokes the observer with
`(0, 8, 0)` even though the write is not committed (the write fails and
the run aborts), refuting the only-if direction of the claim. -/
theorem store_observer_fires_without_commit :
    (emul_ldr_str true cpu0 memNone 0x98000000).1 = [⟨0, 8, 0⟩] ∧
    (emul_ldr_str true cpu0 memNone 0x98000000).2 = none :=
  ⟨rfl, rfl⟩

/-- C7 (amended): for every 8-bit store with the observer registered, the
observer is invoked exactly once with `(address, width, value)` for the
attempted write — whether or not the write commits; with it unregistered,
and for every 8-bit load, no observer invocation happens. -/
theorem store_observer_per_attempt (hook : Bool) (s : Cpu) (m : Mem)
    (instr : Nat) :
    (ls_opc instr = 0x6 →
      (emul_ldr_str hook s m instr).1 =
        (if hook then
          [⟨lsAddr s instr, 8, s.regs (instr_rb instr) &&& 0xff⟩]
         else [])) ∧
    (ls_opc instr = 0x2 → (emul_ldr_str hook s m instr).1 = []) := by
  constructor
  · intro h6
    unfold emul_ldr_str cpu_mem_map_write
    simp only [h6]
    rcases hw : mem_map_write m (lsAddr s instr) 8
        (s.regs (instr_rb instr) &&& 0xff) with _ | m2 <;> simp [hw]
  · intro h2
    unfold emul_ldr_str
    simp only [h2]
    rcases hr : mem_map_read m (lsAddr s instr) 8 with _ | v <;> simp [hr]

/-- Witness for `store_observer_per_attempt`: the store `0x98000000` to
the mapped byte 0 of `memB` fires the observer once with `(0, 8, 0)`. -/
theorem store_observer_per_attempt_witness :
    (emul_ldr_str true cpu0 memB 0x98000000).1 = [⟨0, 8, 0⟩] := by
  have h := (store_observer_per_attempt true cpu0 memB 0x98000000).1
    (by decide)
  exact h.trans (by decide)

/-- C8: with the Lua `validate_result` global registered, the driver
invokes the success callback exactly once when the loop's terminal
outcome is the SUCCESS sentinel and never otherwise; a FAIL outcome
reports failure with zero callback invocations. -/
theorem success_callback_iff_success (hook vr : Bool) (fuel : Nat)
    (s : Cpu) (m : Mem) (o : RunOutcome) (n : Nat) (hvr : vr = true)
    (h : sim_main hook vr fuel s m = some (o, n)) :
    (n = 1 ↔ o = RunOutcome.success) ∧
    (o = RunOutcome.fail → n = 0) := by
  subst hvr
  unfold sim_main at h
  rcases hl : runLoop hook fuel s m with _ | r
  · rw [hl] at h; simp at h
  · rw [hl] at h
    simp only [Option.map_some', Option.some.injEq] at h
    have ho : o = r.1 := by
      have h1 := congrArg Prod.fst h.symm
      simpa using h1
    have hn : n = if r.1 = RunOutcome.success then 1 else 0 := by
      have h2 := congrArg Prod.snd h.symm
      simpa using h2
    subst ho
    cases hr1 : r.1 <;> simp [hr1] at hn ⊢ <;> simp_all

/-- Witness for `success_callback_iff_success`: on the sentinel memory
`memS` the driver returns the success outcome with exactly one callback
invocation. -/
theorem success_callback_iff_success_witness :
    ((1:Nat) = 1 ↔ RunOutcome.success = RunOutcome.success) ∧
    (RunOutcome.success = RunOutcome.fail → (1:Nat) = 0) :=
  success_callback_iff_success true true 1 cpu0 memS RunOutcome.success 1
    rfl (by decide)

/-- The arithmetic emulation never touches the carry flag. -/
theorem emul_arithmetic_preserves_c (s : Cpu) (instr : Nat) (s' : Cpu)
    (h : emul_arithmetic s instr = some s') : s'.c = s.c := by
  have hlt : arith_opc instr < 16 := opc_lt_sixteen _
  set k := arith_opc instr with hk
  interval_cases k <;>
    simp only [emul_arithmetic, ← hk] at h <;>
    simp at h <;>
    (try subst h) <;>
    simp [cpu_wr_reg]

set_option maxRecDepth 4096 in
/-- The branch emulation never touches the carry flag. -/
theorem emul_branch_preserves_c (s : Cpu) (instr : Nat) (s' : Cpu)
    (h : emul_branch s instr = some s') : s'.c = s.c := by
  have hlt : branch_opc instr < 16 := opc_lt_sixteen _
  set k := branch_opc instr with hk
  rcases hz : s.z <;>
    interval_cases k <;>
    simp only [emul_branch, ← hk, hz] at h <;>
    simp at h <;>
    (try subst h) <;>
    simp [cpu_set_next_pc]

/-- Helper bound: a 2-bit class field is below 4. -/
theorem cls_lt_four (x : Nat) : x &&& 0x3 < 4 :=
  Nat.lt_succ_of_le (Nat.and_le_right)

set_option maxRecDepth 4096 in
/-- The load/store emulation never touches the carry flag. -/
theorem emul_ldr_str_preserves_c (hook : Bool) (s : Cpu) (m : Mem)
    (instr : Nat) (s' : Cpu) (m' : Mem)
    (h : (emul_ldr_str hook s m instr).2 = some (s', m')) : s'.c = s.c := by
  have hlt : ls_opc instr < 16 := opc_lt_sixteen _
  set k := ls_opc instr with hk
  rcases hr : mem_map_read m (lsAddr s instr) 8 with _ | v <;>
  rcases hw : mem_map_write m (lsAddr s instr) 8
      (s.regs (instr_rb instr) &&& 0xff) with _ | m2 <;>
    interval_cases k <;>
    simp only [emul_ldr_str, cpu_mem_map_write, ← hk, hr, hw] at h <;>
    simp at h <;>
    (try obtain ⟨h1, h2⟩ := h) <;>
    (try subst h1) <;>
    simp [cpu_wr_reg]

set_option maxRecDepth 4096 in
/-- The instruction dispatch never touches the carry flag. -/
theorem emul_insn_preserves_c (hook : Bool) (s : Cpu) (m : Mem)
    (instr : Nat) (s2 : Cpu) (m2 : Mem)
    (h : (emul_insn hook s m instr).2 = some (s2, m2)) : s2.c = s.c := by
  have hlt : instr_class instr < 4 := cls_lt_four _
  set kc := instr_class instr with hkc
  interval_cases kc <;> simp only [emul_insn, ← hkc] at h
  · rcases ha : emul_arithmetic s instr with _ | sa <;> rw [ha] at h <;>
      simp at h
    obtain ⟨h1, -⟩ := h
    subst h1
    exact emul_arithmetic_preserves_c s instr sa ha
  · rcases ha : emul_branch s instr with _ | sa <;> rw [ha] at h <;>
      simp at h
    obtain ⟨h1, -⟩ := h
    subst h1
    exact emul_branch_preserves_c s instr sa ha
  · exact emul_ldr_str_preserves_c hook s m instr s2 m2 h
  · simp at h

/-- C10: no instruction ever writes the carry flag — after any
`cpu_cycle`, from any pre-state and any memory, the C flag equals its
pre-state value (so it stays 0 for the lifetime of a simulation that
starts from the `calloc`-zeroed state). -/
theorem carry_flag_never_written (hook : Bool) (s : Cpu) (m : Mem) :
    (cpu_cycle hook s m).cpu.c = s.c := by
  simp only [cpu_cycle]
  split
  · rfl
  · split
    · rfl
    · split
      · rfl
      · split
        · rfl
        · rename_i instrN hread hnsucc hnfail hpair evs s2 m2 heqi
          exact emul_insn_preserves_c hook
            { s with next_pc := (s.pc + 4) % 2^32 } m instrN s2 m2
            (by rw [heqi])


